import Mathlib

/-!
Shallow embedding of the session-relay logic of `server.py`
(Twilio / Deepgram voice-agent bridge) together with proofs of the
spec-level properties of its data model and operations.

Conventions of the embedding:
* bytes are modelled as `Nat` (the Python code never overflows a byte:
  `base64.b64decode` yields values in `0..255` and the chunker only
  slices, never does arithmetic on byte values);
* wall-clock timestamps (`time.time()`) are modelled as `Int`, since the
  code only compares and subtracts them;
* the global connection dictionary (`ConnectionManager._connections`)
  is modelled as an association list with unique keys (a Python `dict`);
* I/O effects (messages sent on the upstream websocket, messages built
  for the downstream side) are returned as explicit output lists.
-/

set_option maxRecDepth 4000

/-- Audio buffer configuration, `server.py` line 97: 20ms at 8kHz. -/
def AUDIO_BUFFER_SIZE : Nat := 160

/-- Audio buffer configuration, `server.py` line 98: 400ms max buffer.
(Defined in the source but never read by the chunking loop.) -/
def MAX_BUFFER_SIZE : Nat := 3200

/-! ## Base64 (model of Python `base64.b64encode` / `base64.b64decode`) -/

/-- Index of a character in the standard base64 alphabet, `none` for a
character outside the alphabet. -/
def b64charIdx (c : Char) : Option Nat :=
  let n := c.toNat
  if 65 ≤ n ∧ n ≤ 90 then some (n - 65)
  else if 97 ≤ n ∧ n ≤ 122 then some (n - 97 + 26)
  else if 48 ≤ n ∧ n ≤ 57 then some (n - 48 + 52)
  else if n = 43 then some 62
  else if n = 47 then some 63
  else none

/-- Character of the standard base64 alphabet at a 6-bit index. -/
def b64sym (n : Nat) : Char :=
  if n < 26 then Char.ofNat (65 + n)
  else if n < 52 then Char.ofNat (97 + (n - 26))
  else if n < 62 then Char.ofNat (48 + (n - 52))
  else if n = 62 then Char.ofNat 43
  else Char.ofNat 47

/-- Standard base64 encoding of a byte list, as a character list. -/
def b64encodeCore : List Nat → List Char
  | [] => []
  | [a] => [b64sym (a / 4), b64sym (a % 4 * 16), Char.ofNat 61, Char.ofNat 61]
  | [a, b] => [b64sym (a / 4), b64sym (a % 4 * 16 + b / 16), b64sym (b % 16 * 4), Char.ofNat 61]
  | a :: b :: c :: rest =>
      b64sym (a / 4) :: b64sym (a % 4 * 16 + b / 16) :: b64sym (b % 16 * 4 + c / 64)
        :: b64sym (c % 64) :: b64encodeCore rest

/-- Model of Python `base64.b64encode(..).decode('ascii')`. -/
def b64encode (bs : List Nat) : String :=
  String.mk (b64encodeCore bs)

/-- The character loop of CPython `binascii.a2b_base64` in its default
non-strict mode (Modules/binascii.c).  State: `quad_pos` is the number
of data characters seen in the current quad (0-3), `leftchar` the
pending bits, `pads` the run of pad characters seen at `quad_pos ≥ 2`
(reset by every data character, untouched while `quad_pos < 2`, where
the C code short-circuits past its increment), `acc` the output bytes in
reverse.  A pad character is ignored while `quad_pos < 2`; once
`quad_pos + pads` reaches 4 the quad is considered completed and
decoding finishes successfully, discarding all remaining input.
Characters outside the alphabet are skipped.  At end of input an
incomplete quad (`quad_pos ≠ 0`) is a `binascii.Error`. -/
def a2b_base64 : List Char → Nat → Nat → Nat → List Nat → Option (List Nat)
  | [], quad_pos, _, _, acc =>
      if quad_pos = 0 then some acc.reverse else none
  | c :: rest, quad_pos, leftchar, pads, acc =>
      if c.toNat = 61 then
        if 2 ≤ quad_pos then
          if 4 ≤ quad_pos + (pads + 1) then some acc.reverse
          else a2b_base64 rest quad_pos leftchar (pads + 1) acc
        else a2b_base64 rest quad_pos leftchar pads acc
      else
        match b64charIdx c with
        | none => a2b_base64 rest quad_pos leftchar pads acc
        | some v =>
            match quad_pos with
            | 0 => a2b_base64 rest 1 v 0 acc
            | 1 => a2b_base64 rest 2 (v % 16) 0 ((leftchar * 4 + v / 16) :: acc)
            | 2 => a2b_base64 rest 3 (v % 4) 0 ((leftchar * 16 + v / 4) :: acc)
            | _ => a2b_base64 rest 0 0 0 ((leftchar * 64 + v) :: acc)

/-- Model of Python `base64.b64decode` on a `str`: the string is first
encoded as ASCII (`ValueError` on any character above 127 — also a
decode failure for the caller at `server.py` line 355), then fed to
`binascii.a2b_base64` in non-strict mode; `none` stands for either
exception. -/
def b64decode (s : String) : Option (List Nat) :=
  if s.data.all (fun c => c.toNat < 128) then
    a2b_base64 s.data 0 0 0 []
  else none

/-! ## Session Registry (`ConnectionManager`, `server.py` lines 41-94) -/

/-- One entry of `ConnectionManager._connections`: the dictionary built
by `add_connection` from the data stored in `start_deepgram_connection`
(lines 376-380) plus the two timestamps added in `add_connection`
(lines 49-53).  The websocket handle `deepgram_ws` carries no state
observed by any claim and is omitted. -/
structure Conn where
  stream_sid : String
  audio_buffer : List Nat
  created_at : Int
  last_activity : Int
deriving DecidableEq

/-- `ConnectionManager._connections`: a Python dict, keys unique. -/
abbrev Registry := List (String × Conn)

/-- `ConnectionManager.add_connection` (lines 47-54): stores
`{**connection_data, 'created_at': now, 'last_activity': now}` under the
stream sid, replacing any existing entry for that key. -/
def add_connection (now : Int) (stream_sid : String) (c : Conn) (r : Registry) : Registry :=
  let c2 : Conn := { c with created_at := now, last_activity := now }
  if r.any (fun e => e.1 == stream_sid) then
    r.map (fun e => if e.1 == stream_sid then (e.1, c2) else e)
  else
    r ++ [(stream_sid, c2)]

/-- `ConnectionManager.get_connection` (lines 56-61): looks the sid up
and, when present, sets its `last_activity` to the current time before
returning it. -/
def get_connection (now : Int) (stream_sid : String) (r : Registry) :
    Option Conn × Registry :=
  match r.find? (fun e => e.1 == stream_sid) with
  | none => (none, r)
  | some e =>
      let c : Conn := { e.2 with last_activity := now }
      (some c, r.map (fun e2 => if e2.1 == stream_sid then (e2.1, c) else e2))

/-- `ConnectionManager.remove_connection` (lines 63-67): deletes the key
when present, otherwise does nothing. -/
def remove_connection (stream_sid : String) (r : Registry) : Registry :=
  r.filter (fun e => !(e.1 == stream_sid))

/-- The removal loop of `cleanup_inactive` (lines 78-79) and, with the
ids to drop as input, the shape of an arbitrary removal sequence. -/
def removeAll (r : Registry) (ids : List String) : Registry :=
  ids.foldl (fun acc sid => remove_connection sid acc) r

/-- `ConnectionManager.cleanup_inactive` (lines 69-80): collects every
sid whose entry satisfies `now - last_activity > max_age`, then removes
the collected sids. -/
def cleanup_inactive (now : Int) (max_age : Int) (r : Registry) : Registry :=
  let to_remove :=
    (r.filter (fun e => decide (now - e.2.last_activity > max_age))).map (fun e => e.1)
  removeAll r to_remove

/-- `ConnectionManager.get_active_count` (lines 82-84). -/
def get_active_count (r : Registry) : Nat :=
  r.length

/-- Registration of N sessions (iterated `add_connection`), the data of
each session given by a function of its id. -/
def addAll (now : Int) (f : String → Conn) (r : Registry) (ids : List String) : Registry :=
  ids.foldl (fun acc sid => add_connection now sid (f sid) acc) r

/-! ## Audio Chunker (`send_audio_to_deepgram`, `server.py` lines 506-525) -/

/-- The `while len(buffer) >= AUDIO_BUFFER_SIZE` loop of
`send_audio_to_deepgram` (lines 515-521), written with an explicit fuel
so that it is structurally recursive and kernel-evaluable: each
iteration consumes `AUDIO_BUFFER_SIZE ≥ 1` bytes, so `buf.length` steps
of fuel always suffice (`chunkGo_fuel_irrel` below). Returns the emitted
frames in order and the remaining buffer. -/
def chunkGo : Nat → List Nat → List (List Nat) × List Nat
  | 0, buf => ([], buf)
  | fuel + 1, buf =>
      if AUDIO_BUFFER_SIZE ≤ buf.length then
        let rest := chunkGo fuel (buf.drop AUDIO_BUFFER_SIZE)
        (buf.take AUDIO_BUFFER_SIZE :: rest.1, rest.2)
      else ([], buf)

/-- The chunking loop of `send_audio_to_deepgram` on a buffer: emit
`AUDIO_BUFFER_SIZE`-byte frames from the front while possible, keep the
remainder. -/
def chunkLoop (buf : List Nat) : List (List Nat) × List Nat :=
  chunkGo buf.length buf

/-- `send_audio_to_deepgram` (lines 506-525): look the session up (which
refreshes `last_activity`), extend its `audio_buffer` with the new
bytes, send every complete `AUDIO_BUFFER_SIZE`-byte chunk upstream and
keep the remainder buffered.  When the sid has no Registry entry the
`if conn:` guard (line 510) makes the call a no-op.  The second
component of the result is the list of binary frames sent on the
upstream websocket. -/
def send_audio_to_deepgram (now : Int) (r : Registry) (stream_sid : String)
    (audio_bytes : List Nat) : Registry × List (List Nat) :=
  match get_connection now stream_sid r with
  | (none, _) => (r, [])
  | (some conn, r2) =>
      let res := chunkLoop (conn.audio_buffer ++ audio_bytes)
      (r2.map (fun e => if e.1 == stream_sid then (e.1, { conn with audio_buffer := res.2 }) else e),
       res.1)

/-- Iterated calls of `send_audio_to_deepgram` for one session: one call
per pushed byte string, upstream frames collected in order. -/
def runPushes (now : Int) (stream_sid : String) (r : Registry) :
    List (List Nat) → Registry × List (List Nat)
  | [] => (r, [])
  | p :: ps =>
      let step := send_audio_to_deepgram now r stream_sid p
      let rest := runPushes now stream_sid step.1 ps
      (rest.1, step.2 ++ rest.2)

/-- Accumulator-level form of iterated pushes: state is just the
buffered remainder, exactly how `send_audio_to_deepgram` evolves the
session's `audio_buffer`. -/
def pushAll (acc : List Nat) : List (List Nat) → List (List Nat) × List Nat
  | [] => ([], acc)
  | p :: ps =>
      let r1 := chunkLoop (acc ++ p)
      let r2 := pushAll r1.2 ps
      (r1.1 ++ r2.1, r2.2)

/-- The registry created for a fresh stream: `start_deepgram_connection`
(lines 376-380) registers `{'stream_sid': sid, 'audio_buffer': bytearray()}`. -/
def initRegistry (now : Int) (stream_sid : String) : Registry :=
  add_connection now stream_sid ⟨stream_sid, [], 0, 0⟩ []

/-- The session's buffered remainder as recorded in the Registry. -/
def bufferOf (r : Registry) (stream_sid : String) : List Nat :=
  ((r.find? (fun e => e.1 == stream_sid)).map (fun e => e.2.audio_buffer)).getD []

/-! ## Downstream ingest (`media_webhook`, `server.py` lines 309-367) -/

/-- The Media Stream events dispatched on in `media_webhook` (line 338):
the `event` field, with the `media.track` and `media.payload` fields for
a media event.  A missing track or payload is modelled as `""` (Python
`None` and `""` take the same branch at lines 350 and 353). -/
inductive TwilioEvent where
  | start
  | connected
  | media (track : String) (payload : String)
  | stop
  | other (name : String)
deriving DecidableEq

/-- One `media_webhook` POST for a given stream sid (lines 338-367).
`start` is modelled as completing the registration that the spawned
`start_deepgram_connection` thread performs on connecting (lines
346, 376-380).  A `media` event with inbound track and a nonempty
payload is base64-decoded and pushed to the chunker; a decode failure is
caught at line 358 and only logged.  `stop` removes the Registry entry
(line 362).  Unknown events are logged only.  The second component is
the list of binary frames sent upstream while handling the event. -/
def media_webhook_event (now : Int) (r : Registry) (stream_sid : String)
    (ev : TwilioEvent) : Registry × List (List Nat) :=
  match ev with
  | .start => (add_connection now stream_sid ⟨stream_sid, [], 0, 0⟩ r, [])
  | .connected => (r, [])
  | .media track payload =>
      if track == "inbound" then
        if payload == "" then (r, [])
        else
          match b64decode payload with
          | some audio_bytes => send_audio_to_deepgram now r stream_sid audio_bytes
          | none => (r, [])
      else (r, [])
  | .stop => (remove_connection stream_sid r, [])
  | .other _ => (r, [])

/-- A sequence of `media_webhook` POSTs for one stream, upstream frames
collected in order. -/
def runEvents (now : Int) (r : Registry) (stream_sid : String) :
    List TwilioEvent → Registry × List (List Nat)
  | [] => (r, [])
  | ev :: evs =>
      let step := media_webhook_event now r stream_sid ev
      let rest := runEvents now step.1 stream_sid evs
      (rest.1, step.2 ++ rest.2)

/-! ## Upstream ingest (`handle_deepgram_messages`, `server.py` lines 461-539) -/

/-- Outbound messages for the Twilio side:
`{event: media, streamSid, media: {payload}}` (lines 490-496) and
`{event: clear, streamSid}` (lines 530-533). -/
inductive OutMsg where
  | media (streamSid : String) (payload : String)
  | clear (streamSid : String)
deriving DecidableEq

/-- What a call of `send_audio_to_twilio` / `send_clear_to_twilio`
does: `constructed` are the messages it builds, `transmitted` the
messages actually written to a downstream connection. -/
structure TwilioOut where
  constructed : List OutMsg
  transmitted : List OutMsg
deriving DecidableEq

/-- `send_audio_to_twilio` (lines 483-504): base64-encodes the audio and
builds the media envelope; the source then only logs
"Audio data ready for Twilio" (lines 498-501) and transmits nothing —
there is no downstream connection handle in the program. -/
def send_audio_to_twilio (stream_sid : String) (audio_data : List Nat) : TwilioOut :=
  { constructed := [OutMsg.media stream_sid (b64encode audio_data)], transmitted := [] }

/-- `send_clear_to_twilio` (lines 527-539): builds the clear message;
the source then only logs "Clear message ready for Twilio" (lines
535-536) and transmits nothing. -/
def send_clear_to_twilio (stream_sid : String) : TwilioOut :=
  { constructed := [OutMsg.clear stream_sid], transmitted := [] }

/-- A message received from the Deepgram websocket (line 464): a text
frame, represented by its parsed `type` field (`data.get('type')`, so
`none` when the field is missing), or a binary audio frame. -/
inductive DeepgramMsg where
  | text (type_field : Option String)
  | binary (data : List Nat)
deriving DecidableEq

/-- One iteration of the `async for` loop of `handle_deepgram_messages`
(lines 464-478): a text event of type `UserStartedSpeaking` goes to
`send_clear_to_twilio`, every other text event is logged only, and a
binary frame goes to `send_audio_to_twilio`.  The stream sid is a
parameter of the loop, handed down from the `start` webhook event. -/
def handle_deepgram_message (stream_sid : String) (msg : DeepgramMsg) : TwilioOut :=
  match msg with
  | .text t =>
      if t == some "UserStartedSpeaking" then send_clear_to_twilio stream_sid
      else { constructed := [], transmitted := [] }
  | .binary d => send_audio_to_twilio stream_sid d

/-! ## Session configuration (`server.py` lines 121-194 and 382-439) -/

/-- JSON-like values, enough for the Settings payload.  `num p q`
denotes the decimal p/q (e.g. the temperature 0.7 as `num 7 10`). -/
inductive Jv where
  | str (s : String)
  | num (p : Int) (q : Nat)
  | obj (fields : List (String × Jv))

/-- The apostrophe character. -/
def apos : String := String.mk [Char.ofNat 39]

/-- The system prompt of the agent configuration (lines 151-166 and,
verbatim again, lines 410-425). -/
def prompt_text : String :=
  "You are a helpful AI assistant integrated into a phone system.\n\nGuidelines:\n- Be concise and conversational since this is a voice interaction\n- When users ask you to text something, offer to send an SMS\n- When asked about business hours, provide helpful information\n- When users want to set reminders, acknowledge the request\n- Keep responses brief and natural for voice conversation\n- Be friendly and professional\n\nYou can help with:\n- General questions and conversation\n- Information lookup\n- Simple assistance and guidance\n\nCurrent user is calling via phone."

/-- The greeting of the agent configuration (lines 175 and 434). -/
def greeting_text : String :=
  "Hello! I" ++ apos ++ "m your AI assistant. How can I help you today?"

/-- `get_deepgram_config` (lines 121-177): the cached Settings payload.
The `lru_cache` decorator only memoizes this pure constant. -/
def get_deepgram_config : Jv :=
  Jv.obj [
    ("type", Jv.str "Settings"),
    ("audio", Jv.obj [
      ("input", Jv.obj [("encoding", Jv.str "mulaw"), ("sample_rate", Jv.num 8000 1)]),
      ("output", Jv.obj [("encoding", Jv.str "mulaw"), ("sample_rate", Jv.num 8000 1),
        ("container", Jv.str "none")])]),
    ("agent", Jv.obj [
      ("language", Jv.str "en"),
      ("listen", Jv.obj [("provider", Jv.obj [("type", Jv.str "deepgram"),
        ("model", Jv.str "aura-2-odysseus-en")])]),
      ("think", Jv.obj [("provider", Jv.obj [("type", Jv.str "open_ai"),
        ("model", Jv.str "gpt-4o-mini"), ("temperature", Jv.num 7 10)]),
        ("prompt", Jv.str prompt_text)]),
      ("speak", Jv.obj [("provider", Jv.obj [("type", Jv.str "deepgram"),
        ("model", Jv.str "aura-2-odysseus-en"), ("voice", Jv.str "nova")])]),
      ("greeting", Jv.str greeting_text)])]

/-- The inline `config_message` built in `start_deepgram_connection`
(lines 383-436), translated verbatim.  The parameters are the data in
scope when the message is built: the session's stream sid (the
function's argument) and the deployment's bearer credential (readable
from the process environment); the source dict references neither. -/
def config_message (stream_sid : String) (api_key : String) : Jv :=
  Jv.obj [
    ("type", Jv.str "Settings"),
    ("audio", Jv.obj [
      ("input", Jv.obj [("encoding", Jv.str "mulaw"), ("sample_rate", Jv.num 8000 1)]),
      ("output", Jv.obj [("encoding", Jv.str "mulaw"), ("sample_rate", Jv.num 8000 1),
        ("container", Jv.str "none")])]),
    ("agent", Jv.obj [
      ("language", Jv.str "en"),
      ("listen", Jv.obj [("provider", Jv.obj [("type", Jv.str "deepgram"),
        ("model", Jv.str "aura-2-odysseus-en")])]),
      ("think", Jv.obj [("provider", Jv.obj [("type", Jv.str "open_ai"),
        ("model", Jv.str "gpt-4o-mini"), ("temperature", Jv.num 7 10)]),
        ("prompt", Jv.str prompt_text)]),
      ("speak", Jv.obj [("provider", Jv.obj [("type", Jv.str "deepgram"),
        ("model", Jv.str "aura-2-odysseus-en"), ("voice", Jv.str "nova")])]),
      ("greeting", Jv.str greeting_text)])]

/-- The connection request of `create_deepgram_connection` (lines
179-194): the bearer credential travels as a websocket subprotocol, a
connection-level credential; `none` models the `ValueError` raised when
no credential is configured (line 182-183, Python `not api_key`). -/
def create_deepgram_connection (api_key : String) : Option (String × List String) :=
  if api_key == "" then none
  else some ("wss://agent.deepgram.com/agent", ["token", api_key])

/-! ## Concrete inputs used by witnesses and counterexamples -/

/-- A two-session registry with distinct last-activity times. -/
def sampleRegistry : Registry :=
  [("a", ⟨"a", [], 0, 0⟩), ("b", ⟨"b", [], 0, 100⟩)]

/-- Base64 of 160 zero bytes (the payload of one 20ms Twilio media
frame): 214 times the letter A followed by two pads. -/
def payload160 : String :=
  String.mk (List.replicate 214 (Char.ofNat 65) ++ [Char.ofNat 61, Char.ofNat 61])

/-- The C2 scenario event sequence: start, five 160-byte inbound media
frames, stop. -/
def c2Events : List TwilioEvent :=
  [TwilioEvent.start,
   TwilioEvent.media "inbound" payload160,
   TwilioEvent.media "inbound" payload160,
   TwilioEvent.media "inbound" payload160,
   TwilioEvent.media "inbound" payload160,
   TwilioEvent.media "inbound" payload160,
   TwilioEvent.stop]

/-! ## Chunker lemmas -/

/-- More fuel than the buffer length never changes `chunkGo`. -/
theorem chunkGo_fuel_irrel : ∀ (f g : Nat) (buf : List Nat),
    buf.length ≤ f → buf.length ≤ g → chunkGo f buf = chunkGo g buf := by
  intro f
  induction f with
  | zero =>
    intro g buf hf _
    have hb : buf = [] := List.eq_nil_of_length_eq_zero (by omega)
    subst hb
    cases g <;> simp [chunkGo, AUDIO_BUFFER_SIZE]
  | succ n ih =>
    intro g buf hf hg
    cases g with
    | zero =>
      have hb : buf = [] := List.eq_nil_of_length_eq_zero (by omega)
      subst hb
      simp [chunkGo, AUDIO_BUFFER_SIZE]
    | succ m =>
      simp only [chunkGo]
      by_cases h : AUDIO_BUFFER_SIZE ≤ buf.length
      · rw [if_pos h, if_pos h]
        have hA : 0 < AUDIO_BUFFER_SIZE := by decide
        have hd : (buf.drop AUDIO_BUFFER_SIZE).length = buf.length - AUDIO_BUFFER_SIZE :=
          List.length_drop AUDIO_BUFFER_SIZE buf
        rw [ih m (buf.drop AUDIO_BUFFER_SIZE) (by omega) (by omega)]
      · rw [if_neg h, if_neg h]

/-- Unfolding of `chunkLoop` on a short buffer: the while guard fails. -/
theorem chunkLoop_lt {buf : List Nat} (h : buf.length < AUDIO_BUFFER_SIZE) :
    chunkLoop buf = ([], buf) := by
  unfold chunkLoop
  cases hl : buf.length with
  | zero => simp [chunkGo]
  | succ n =>
    simp only [chunkGo]
    rw [if_neg (by omega)]

/-- Unfolding of `chunkLoop` on a long buffer: one frame is emitted and
the loop continues on the rest. -/
theorem chunkLoop_ge {buf : List Nat} (h : AUDIO_BUFFER_SIZE ≤ buf.length) :
    chunkLoop buf =
      (buf.take AUDIO_BUFFER_SIZE :: (chunkLoop (buf.drop AUDIO_BUFFER_SIZE)).1,
       (chunkLoop (buf.drop AUDIO_BUFFER_SIZE)).2) := by
  have hA : 0 < AUDIO_BUFFER_SIZE := by decide
  unfold chunkLoop
  cases hl : buf.length with
  | zero => omega
  | succ n =>
    simp only [chunkGo]
    rw [if_pos h]
    have hd : (buf.drop AUDIO_BUFFER_SIZE).length = buf.length - AUDIO_BUFFER_SIZE :=
      List.length_drop AUDIO_BUFFER_SIZE buf
    rw [chunkGo_fuel_irrel n (buf.drop AUDIO_BUFFER_SIZE).length (buf.drop AUDIO_BUFFER_SIZE)
      (by omega) (by omega)]

/-- No byte is lost or duplicated by the chunking loop. -/
theorem chunkGo_join : ∀ (f : Nat) (buf : List Nat),
    (chunkGo f buf).1.flatten ++ (chunkGo f buf).2 = buf := by
  intro f
  induction f with
  | zero => intro buf; simp [chunkGo]
  | succ n ih =>
    intro buf
    simp only [chunkGo]
    by_cases h : AUDIO_BUFFER_SIZE ≤ buf.length
    · rw [if_pos h]
      simp only [List.flatten_cons]
      rw [List.append_assoc, ih (buf.drop AUDIO_BUFFER_SIZE), List.take_append_drop]
    · rw [if_neg h]
      simp

/-- Every frame emitted by the chunking loop has the configured length. -/
theorem chunkGo_frames : ∀ (f : Nat) (buf : List Nat),
    ∀ x ∈ (chunkGo f buf).1, x.length = AUDIO_BUFFER_SIZE := by
  intro f
  induction f with
  | zero => intro buf x hx; simp [chunkGo] at hx
  | succ n ih =>
    intro buf x hx
    simp only [chunkGo] at hx
    by_cases h : AUDIO_BUFFER_SIZE ≤ buf.length
    · rw [if_pos h] at hx
      rcases List.mem_cons.mp hx with h1 | h2
      · subst h1
        simp [List.length_take]
        omega
      · exact ih (buf.drop AUDIO_BUFFER_SIZE) x h2
    · rw [if_neg h] at hx
      simp at hx

/-- The remainder left by the chunking loop is shorter than one frame. -/
theorem chunkGo_rem_lt : ∀ (f : Nat) (buf : List Nat), buf.length ≤ f →
    (chunkGo f buf).2.length < AUDIO_BUFFER_SIZE := by
  have hA : 0 < AUDIO_BUFFER_SIZE := by decide
  intro f
  induction f with
  | zero =>
    intro buf hf
    have hb : buf = [] := List.eq_nil_of_length_eq_zero (by omega)
    subst hb
    simpa [chunkGo] using hA
  | succ n ih =>
    intro buf hf
    simp only [chunkGo]
    by_cases h : AUDIO_BUFFER_SIZE ≤ buf.length
    · rw [if_pos h]
      have hd : (buf.drop AUDIO_BUFFER_SIZE).length = buf.length - AUDIO_BUFFER_SIZE :=
        List.length_drop AUDIO_BUFFER_SIZE buf
      exact ih (buf.drop AUDIO_BUFFER_SIZE) (by omega)
    · rw [if_neg h]
      change buf.length < AUDIO_BUFFER_SIZE
      omega

/-- `chunkLoop` form of `chunkGo_join`. -/
theorem chunkLoop_join (buf : List Nat) :
    (chunkLoop buf).1.flatten ++ (chunkLoop buf).2 = buf :=
  chunkGo_join buf.length buf

/-- `chunkLoop` form of `chunkGo_frames`. -/
theorem chunkLoop_frames (buf : List Nat) :
    ∀ x ∈ (chunkLoop buf).1, x.length = AUDIO_BUFFER_SIZE :=
  chunkGo_frames buf.length buf

/-- `chunkLoop` form of `chunkGo_rem_lt`. -/
theorem chunkLoop_rem_lt (buf : List Nat) :
    (chunkLoop buf).2.length < AUDIO_BUFFER_SIZE :=
  chunkGo_rem_lt buf.length buf (Nat.le_refl _)

/-- Chunking a concatenation: first chunk the front, then continue on
its remainder followed by the back. -/
theorem chunkGo_append : ∀ (f : Nat) (a b : List Nat), a.length ≤ f →
    chunkLoop (a ++ b) =
      ((chunkGo f a).1 ++ (chunkLoop ((chunkGo f a).2 ++ b)).1,
       (chunkLoop ((chunkGo f a).2 ++ b)).2) := by
  intro f
  induction f with
  | zero =>
    intro a b hf
    have ha : a = [] := List.eq_nil_of_length_eq_zero (by omega)
    subst ha
    simp [chunkGo]
  | succ n ih =>
    intro a b hf
    simp only [chunkGo]
    by_cases h : AUDIO_BUFFER_SIZE ≤ a.length
    · rw [if_pos h]
      have hab : AUDIO_BUFFER_SIZE ≤ (a ++ b).length := by
        rw [List.length_append]; omega
      rw [chunkLoop_ge hab, List.take_append_of_le_length h, List.drop_append_of_le_length h]
      have hd : (a.drop AUDIO_BUFFER_SIZE).length = a.length - AUDIO_BUFFER_SIZE :=
        List.length_drop AUDIO_BUFFER_SIZE a
      have hA : 0 < AUDIO_BUFFER_SIZE := by decide
      rw [ih (a.drop AUDIO_BUFFER_SIZE) b (by omega)]
      simp
    · rw [if_neg h]
      simp

/-- `chunkLoop` form of `chunkGo_append`. -/
theorem chunkLoop_append (a b : List Nat) :
    chunkLoop (a ++ b) =
      ((chunkLoop a).1 ++ (chunkLoop ((chunkLoop a).2 ++ b)).1,
       (chunkLoop ((chunkLoop a).2 ++ b)).2) :=
  chunkGo_append a.length a b (Nat.le_refl _)

/-! ## Iterated pushes -/

/-- Iterated pushes are the chunking of the concatenation: the chunker
is deterministic in the concatenation of all bytes pushed so far. -/
theorem pushAll_eq (ps : List (List Nat)) : ∀ (acc : List Nat),
    acc.length < AUDIO_BUFFER_SIZE →
    pushAll acc ps = chunkLoop (acc ++ ps.flatten) := by
  induction ps with
  | nil =>
    intro acc h
    simp [pushAll, chunkLoop_lt h]
  | cons p ps ih =>
    intro acc h
    have hrem := chunkLoop_rem_lt (acc ++ p)
    have ih2 := ih (chunkLoop (acc ++ p)).2 hrem
    simp only [pushAll, List.flatten_cons]
    rw [ih2, ← List.append_assoc, chunkLoop_append (acc ++ p) ps.flatten]

/-- One chunker call on a single-session registry. -/
theorem send_audio_singleton (now : Int) (sid : String) (c : Conn) (p : List Nat) :
    send_audio_to_deepgram now [(sid, c)] sid p =
      ([(sid, { c with last_activity := now,
                       audio_buffer := (chunkLoop (c.audio_buffer ++ p)).2 })],
       (chunkLoop (c.audio_buffer ++ p)).1) := by
  simp [send_audio_to_deepgram, get_connection, List.find?]

/-- Iterated chunker calls on a single-session registry evolve exactly
the accumulator of `pushAll`. -/
theorem runPushes_singleton (now : Int) (sid : String) :
    ∀ (ps : List (List Nat)) (c : Conn), c.last_activity = now →
      runPushes now sid [(sid, c)] ps =
        ([(sid, { c with audio_buffer := (pushAll c.audio_buffer ps).2 })],
         (pushAll c.audio_buffer ps).1) := by
  intro ps
  induction ps with
  | nil =>
    intro c hc
    simp [runPushes, pushAll]
  | cons p ps ih =>
    intro c hc
    subst hc
    have hstep := send_audio_singleton c.last_activity sid c p
    have ihc := ih { c with last_activity := c.last_activity,
                            audio_buffer := (chunkLoop (c.audio_buffer ++ p)).2 } rfl
    simp only [runPushes, pushAll]
    rw [hstep, ihc]

/-- The Registry entry created for a fresh stream. -/
theorem initRegistry_eq (now : Int) (sid : String) :
    initRegistry now sid = [(sid, ⟨sid, [], now, now⟩)] := by
  simp [initRegistry, add_connection]

/-- `bufferOf` on the single-session registry. -/
theorem bufferOf_singleton (sid : String) (c : Conn) :
    bufferOf [(sid, c)] sid = c.audio_buffer := by
  simp [bufferOf, List.find?]

/-- C1: for every sequence of byte strings pushed incrementally through
`send_audio_to_deepgram` for one session, the concatenation of all
emitted upstream frames plus the session's remaining `audio_buffer`
equals the concatenation of all pushed bytes, every emitted frame has
exactly `AUDIO_BUFFER_SIZE` bytes, the remaining buffer is shorter than
one frame, and the emitted frames depend only on the concatenation of
the pushes, not on call boundaries. -/
theorem audio_chunker_correct (now : Int) (sid : String) (pushes : List (List Nat)) :
    (runPushes now sid (initRegistry now sid) pushes).2.flatten
        ++ bufferOf (runPushes now sid (initRegistry now sid) pushes).1 sid
      = pushes.flatten
    ∧ (∀ f ∈ (runPushes now sid (initRegistry now sid) pushes).2,
        f.length = AUDIO_BUFFER_SIZE)
    ∧ (bufferOf (runPushes now sid (initRegistry now sid) pushes).1 sid).length
        < AUDIO_BUFFER_SIZE
    ∧ (runPushes now sid (initRegistry now sid) pushes).2
        = (runPushes now sid (initRegistry now sid) [pushes.flatten]).2 := by
  have hnil : (([] : List Nat)).length < AUDIO_BUFFER_SIZE := by decide
  have hrun := runPushes_singleton now sid pushes ⟨sid, [], now, now⟩ rfl
  have hrun2 := runPushes_singleton now sid [pushes.flatten] ⟨sid, [], now, now⟩ rfl
  have hp : pushAll ([] : List Nat) pushes = chunkLoop pushes.flatten := by
    rw [pushAll_eq pushes [] hnil]
    simp
  have hp2 : pushAll ([] : List Nat) [pushes.flatten] = chunkLoop pushes.flatten := by
    rw [pushAll_eq [pushes.flatten] [] hnil]
    simp
  have hframes : (runPushes now sid (initRegistry now sid) pushes).2
      = (chunkLoop pushes.flatten).1 := by
    rw [initRegistry_eq, hrun]
    simp [hp]
  have hframes2 : (runPushes now sid (initRegistry now sid) [pushes.flatten]).2
      = (chunkLoop pushes.flatten).1 := by
    rw [initRegistry_eq, hrun2]
    simp [hp2]
  have hbuf : bufferOf (runPushes now sid (initRegistry now sid) pushes).1 sid
      = (chunkLoop pushes.flatten).2 := by
    rw [initRegistry_eq, hrun]
    simp [bufferOf, hp]
  refine ⟨?_, ?_, ?_, ?_⟩
  · rw [hframes, hbuf]
    exact chunkLoop_join pushes.flatten
  · rw [hframes]
    exact chunkLoop_frames pushes.flatten
  · rw [hbuf]
    exact chunkLoop_rem_lt pushes.flatten
  · rw [hframes, hframes2]

/-- Witness for `audio_chunker_correct`: two pushes totalling three
bytes stay buffered (no frame emitted) and obey every conjunct. -/
theorem audio_chunker_correct_witness :
    (runPushes 0 "S" (initRegistry 0 "S") [[1, 2], [3]]).2.flatten
        ++ bufferOf (runPushes 0 "S" (initRegistry 0 "S") [[1, 2], [3]]).1 "S"
      = [[1, 2], [3]].flatten
    ∧ (∀ f ∈ (runPushes 0 "S" (initRegistry 0 "S") [[1, 2], [3]]).2,
        f.length = AUDIO_BUFFER_SIZE)
    ∧ (bufferOf (runPushes 0 "S" (initRegistry 0 "S") [[1, 2], [3]]).1 "S").length
        < AUDIO_BUFFER_SIZE
    ∧ (runPushes 0 "S" (initRegistry 0 "S") [[1, 2], [3]]).2
        = (runPushes 0 "S" (initRegistry 0 "S") [[[1, 2], [3]].flatten]).2 :=
  audio_chunker_correct 0 "S" [[1, 2], [3]]

/-! ## Registry lemmas -/

/-- Membership after a `remove_connection`. -/
theorem remove_connection_mem (sid : String) (r : Registry) (e : String × Conn) :
    e ∈ remove_connection sid r ↔ e ∈ r ∧ ¬(e.1 = sid) := by
  simp [remove_connection, List.mem_filter]

/-- Membership after removing a list of sids. -/
theorem removeAll_mem : ∀ (ids : List String) (r : Registry) (e : String × Conn),
    e ∈ removeAll r ids ↔ e ∈ r ∧ e.1 ∉ ids := by
  intro ids
  induction ids with
  | nil => intro r e; simp [removeAll]
  | cons i ids ih =>
    intro r e
    have hstep : removeAll r (i :: ids) = removeAll (remove_connection i r) ids := rfl
    rw [hstep, ih (remove_connection i r) e, remove_connection_mem]
    simp [List.mem_cons]
    tauto

/-- C6 sweep half: `cleanup_inactive` keeps exactly the entries whose
last activity is not older than `now - max_age`. -/
theorem cleanup_inactive_mem (now max_age : Int) (r : Registry)
    (hnd : (r.map Prod.fst).Nodup) (e : String × Conn) :
    e ∈ cleanup_inactive now max_age r
      ↔ e ∈ r ∧ ¬(now - e.2.last_activity > max_age) := by
  unfold cleanup_inactive
  rw [removeAll_mem]
  constructor
  · rintro ⟨he, hnot⟩
    refine ⟨he, fun hstale => hnot ?_⟩
    exact List.mem_map.mpr ⟨e, List.mem_filter.mpr ⟨he, by simpa using hstale⟩, rfl⟩
  · rintro ⟨he, hfresh⟩
    refine ⟨he, fun hmem => ?_⟩
    rcases List.mem_map.mp hmem with ⟨e2, he2, hkey⟩
    rcases List.mem_filter.mp he2 with ⟨he2r, hstale⟩
    have he2e : e2 = e := List.inj_on_of_nodup_map hnd he2r he hkey
    subst he2e
    exact hfresh (by simpa using hstale)

/-- C6 get half: `get_connection` sets the looked-up entry's
`last_activity` to the current time and leaves every other entry (and an
absent key's registry) unchanged. -/
theorem get_connection_registry (now : Int) (sid : String) (r : Registry)
    (hnd : (r.map Prod.fst).Nodup) :
    (get_connection now sid r).2
      = r.map (fun e =>
          if e.1 = sid then (e.1, { e.2 with last_activity := now }) else e) := by
  cases hf : r.find? (fun e => e.1 == sid) with
  | none =>
    have hall := List.find?_eq_none.mp hf
    simp only [get_connection, hf]
    have hid : ∀ e ∈ r,
        (if e.1 = sid then (e.1, { e.2 with last_activity := now }) else e) = id e := by
      intro e he
      rw [if_neg, id]
      intro hk
      exact hall e he (by simp [hk])
    exact ((List.map_congr_left hid).trans (List.map_id r)).symm
  | some e0 =>
    have hkey : e0.1 = sid := by simpa using List.find?_some hf
    have hmem : e0 ∈ r := List.mem_of_find?_eq_some hf
    simp only [get_connection, hf]
    apply List.map_congr_left
    intro a ha
    by_cases h : a.1 = sid
    · have hae : a = e0 := List.inj_on_of_nodup_map hnd ha hmem (by rw [h, hkey])
      subst hae
      simp [h]
    · simp [h]

/-- C6: for every registry state and idle threshold, the sweep
(`cleanup_inactive`) removes exactly the sessions whose `last_activity`
is older than `now - max_age` and none of the others, and `get_connection`
of any sid updates that session's `last_activity` to the current time,
leaving all other entries unchanged. -/
theorem registry_sweep_and_get (now max_age : Int) (r : Registry)
    (hnd : (r.map Prod.fst).Nodup) :
    (∀ e : String × Conn, e ∈ cleanup_inactive now max_age r
        ↔ e ∈ r ∧ ¬(now - e.2.last_activity > max_age))
    ∧ (∀ sid : String, (get_connection now sid r).2
        = r.map (fun e =>
            if e.1 = sid then (e.1, { e.2 with last_activity := now }) else e)) :=
  ⟨fun e => cleanup_inactive_mem now max_age r hnd e,
   fun sid => get_connection_registry now sid r hnd⟩

/-- Witness for `registry_sweep_and_get` on a concrete two-entry
registry: the entry idle for 200 time units is swept at threshold 150,
the one idle for 100 is kept. -/
theorem registry_sweep_and_get_witness :
    (sampleRegistry.map Prod.fst).Nodup
    ∧ ((∀ e : String × Conn, e ∈ cleanup_inactive 200 150 sampleRegistry
          ↔ e ∈ sampleRegistry ∧ ¬(200 - e.2.last_activity > 150))
      ∧ (∀ sid : String, (get_connection 200 sid sampleRegistry).2
          = sampleRegistry.map (fun e =>
              if e.1 = sid then (e.1, { e.2 with last_activity := 200 }) else e))) :=
  ⟨by decide, registry_sweep_and_get 200 150 sampleRegistry (by decide)⟩

/-- Registering a fresh sid appends one entry. -/
theorem add_connection_fresh (now : Int) (i : String) (c : Conn) (r : Registry)
    (hi : i ∉ r.map Prod.fst) :
    add_connection now i c r
      = r ++ [(i, { c with created_at := now, last_activity := now })] := by
  have hany : r.any (fun e => e.1 == i) = false := by
    rw [List.any_eq_false]
    intro x hx
    simp only [beq_iff_eq]
    intro hxi
    exact hi (List.mem_map.mpr ⟨x, hx, hxi⟩)
  unfold add_connection
  rw [if_neg (by simp [hany])]

/-- Registering distinct fresh sids appends their keys in order. -/
theorem addAll_keys (now : Int) (f : String → Conn) :
    ∀ (ids : List String) (r : Registry),
      (∀ i ∈ ids, i ∉ r.map Prod.fst) → ids.Nodup →
      (addAll now f r ids).map Prod.fst = r.map Prod.fst ++ ids := by
  intro ids
  induction ids with
  | nil => intro r _ _; simp [addAll]
  | cons i ids ih =>
    intro r hfresh hnd
    have hi : i ∉ r.map Prod.fst := hfresh i (by simp)
    have hadd := add_connection_fresh now i (f i) r hi
    have hstep : addAll now f r (i :: ids) = addAll now f (add_connection now i (f i) r) ids := rfl
    rw [hstep, hadd]
    have hkeys : (r ++ [(i, { f i with created_at := now, last_activity := now })]).map Prod.fst
        = r.map Prod.fst ++ [i] := by simp
    have hfresh2 : ∀ j ∈ ids,
        j ∉ (r ++ [(i, { f i with created_at := now, last_activity := now })]).map Prod.fst := by
      intro j hj
      rw [hkeys]
      simp only [List.mem_append, List.mem_singleton]
      rintro (hjr | hji)
      · exact hfresh j (by simp [hj]) hjr
      · subst hji
        exact (List.nodup_cons.mp hnd).1 hj
    rw [ih _ hfresh2 (List.nodup_cons.mp hnd).2, hkeys]
    simp

/-- Registering N distinct sids into the empty registry yields N
entries: nothing is duplicated. -/
theorem addAll_count (now : Int) (f : String → Conn) (ids : List String)
    (hnd : ids.Nodup) :
    get_active_count (addAll now f [] ids) = ids.length := by
  have h := addAll_keys now f ids [] (by simp) hnd
  have hlen := congrArg List.length h
  simpa [get_active_count] using hlen

/-- C7: registering a session then removing it leaves zero active
sessions; registering N distinct ids gives N entries (none duplicated)
and removing all N in any order leaves zero active sessions (none
leaked); and removing an absent id is a no-op, so removal is
idempotent. -/
theorem registry_lifecycle (now : Int) (sid : String) (c : Conn)
    (f : String → Conn) (ids perm : List String)
    (hnd : ids.Nodup) (hperm : perm.Perm ids) :
    get_active_count (remove_connection sid (add_connection now sid c [])) = 0
    ∧ get_active_count (addAll now f [] ids) = ids.length
    ∧ get_active_count (removeAll (addAll now f [] ids) perm) = 0
    ∧ (∀ r : Registry, sid ∉ r.map Prod.fst → remove_connection sid r = r)
    ∧ (∀ r : Registry,
        remove_connection sid (remove_connection sid r) = remove_connection sid r) := by
  refine ⟨?_, addAll_count now f ids hnd, ?_, ?_, ?_⟩
  · simp [add_connection, remove_connection, get_active_count]
  · have hempty : removeAll (addAll now f [] ids) perm = [] := by
      rw [List.eq_nil_iff_forall_not_mem]
      intro e he
      rw [removeAll_mem] at he
      rcases he with ⟨hin, hnotin⟩
      have hkey : e.1 ∈ ids := by
        have hk := addAll_keys now f ids [] (by simp) hnd
        have hm : e.1 ∈ (addAll now f [] ids).map Prod.fst :=
          List.mem_map.mpr ⟨e, hin, rfl⟩
        rw [hk] at hm
        simpa using hm
      exact hnotin (hperm.mem_iff.mpr hkey)
    simp [hempty, get_active_count]
  · intro r hr
    simp only [remove_connection]
    rw [List.filter_eq_self]
    intro a ha
    simp only [Bool.not_eq_eq_eq_not, Bool.not_true, beq_eq_false_iff_ne, ne_eq]
    intro hk
    exact hr (List.mem_map.mpr ⟨a, ha, hk⟩)
  · intro r
    simp only [remove_connection]
    rw [List.filter_filter]
    apply List.filter_congr
    intro a _
    exact Bool.and_self _

/-- Witness for `registry_lifecycle`: two distinct ids registered and
removed in reversed order. -/
theorem registry_lifecycle_witness :
    (["a", "b"] : List String).Nodup
    ∧ (["b", "a"] : List String).Perm ["a", "b"]
    ∧ (get_active_count (remove_connection "x" (add_connection 5 "x" ⟨"x", [], 0, 0⟩ [])) = 0
      ∧ get_active_count (addAll 5 (fun i => (⟨i, [], 0, 0⟩ : Conn)) [] ["a", "b"])
          = (["a", "b"] : List String).length
      ∧ get_active_count
          (removeAll (addAll 5 (fun i => (⟨i, [], 0, 0⟩ : Conn)) [] ["a", "b"]) ["b", "a"]) = 0
      ∧ (∀ r : Registry, "x" ∉ r.map Prod.fst → remove_connection "x" r = r)
      ∧ (∀ r : Registry,
          remove_connection "x" (remove_connection "x" r) = remove_connection "x" r)) :=
  ⟨by decide, by decide,
   registry_lifecycle 5 "x" ⟨"x", [], 0, 0⟩ (fun i => ⟨i, [], 0, 0⟩) ["a", "b"] ["b", "a"]
     (by decide) (by decide)⟩

/-! ## Downstream and upstream event theorems -/

/-- C5: a media event whose track is not "inbound" produces no upstream
traffic and leaves the Registry (hence every session's accumulator and
timestamps) unchanged. -/
theorem non_inbound_track_discarded (now : Int) (r : Registry) (sid track payload : String)
    (h : ¬(track = "inbound")) :
    media_webhook_event now r sid (TwilioEvent.media track payload) = (r, []) := by
  simp [media_webhook_event, h]

/-- Witness for `non_inbound_track_discarded`: an outbound-track frame
against the two-session registry. -/
theorem non_inbound_track_discarded_witness :
    ¬(("outbound" : String) = "inbound")
    ∧ media_webhook_event 0 sampleRegistry "a" (TwilioEvent.media "outbound" "AAAA")
        = (sampleRegistry, []) :=
  ⟨by decide, non_inbound_track_discarded 0 sampleRegistry "a" "outbound" "AAAA" (by decide)⟩

/-- C8: an inbound media frame whose payload fails to base64-decode is
skipped after logging: no bytes reach the chunker, nothing is sent
upstream, the Registry is untouched, and the session processes any
subsequent events exactly as if the bad frame had never arrived. -/
theorem bad_base64_frame_skipped (now : Int) (r : Registry) (sid payload : String)
    (evs : List TwilioEvent) (h : b64decode payload = none) :
    media_webhook_event now r sid (TwilioEvent.media "inbound" payload) = (r, [])
    ∧ runEvents now r sid (TwilioEvent.media "inbound" payload :: evs)
        = runEvents now r sid evs := by
  have h1 : media_webhook_event now r sid (TwilioEvent.media "inbound" payload) = (r, []) := by
    by_cases hp : payload == ""
    · simp [media_webhook_event, hp]
    · simp [media_webhook_event, hp, h]
  refine ⟨h1, ?_⟩
  simp only [runEvents]
  rw [h1]
  simp

/-- Witness for `bad_base64_frame_skipped`: the payload "A" (a single
base64 symbol, which Python rejects as invalid padding) followed by a
stop event. -/
theorem bad_base64_frame_skipped_witness :
    b64decode "A" = none
    ∧ (media_webhook_event 0 sampleRegistry "a" (TwilioEvent.media "inbound" "A")
        = (sampleRegistry, [])
      ∧ runEvents 0 sampleRegistry "a" (TwilioEvent.media "inbound" "A" :: [TwilioEvent.stop])
          = runEvents 0 sampleRegistry "a" [TwilioEvent.stop]) :=
  ⟨by decide, bad_base64_frame_skipped 0 sampleRegistry "a" "A" [TwilioEvent.stop] (by decide)⟩

/-- C10: a media frame for a stream sid with no Registry entry is
silently dropped: `send_audio_to_deepgram` sends nothing upstream,
buffers nothing for later, leaves the Registry unchanged, and the
webhook handler behaves the same on the full media event. -/
theorem unknown_stream_media_dropped (now : Int) (r : Registry) (sid payload : String)
    (audio_bytes : List Nat) (h : sid ∉ r.map Prod.fst) :
    send_audio_to_deepgram now r sid audio_bytes = (r, [])
    ∧ media_webhook_event now r sid (TwilioEvent.media "inbound" payload) = (r, []) := by
  have hf : r.find? (fun e => e.1 == sid) = none := by
    rw [List.find?_eq_none]
    intro x hx
    simp only [beq_iff_eq]
    intro hxs
    exact h (List.mem_map.mpr ⟨x, hx, hxs⟩)
  have hsend : ∀ bs : List Nat, send_audio_to_deepgram now r sid bs = (r, []) := by
    intro bs
    simp [send_audio_to_deepgram, get_connection, hf]
  refine ⟨hsend audio_bytes, ?_⟩
  by_cases hp : payload == ""
  · simp [media_webhook_event, hp]
  · cases hd : b64decode payload with
    | none => simp [media_webhook_event, hp, hd]
    | some bs => simp [media_webhook_event, hp, hd, hsend bs]

/-- Witness for `unknown_stream_media_dropped`: sid "zz" is absent from
the two-session registry; a valid 3-byte payload is dropped. -/
theorem unknown_stream_media_dropped_witness :
    ("zz" ∉ sampleRegistry.map Prod.fst)
    ∧ (send_audio_to_deepgram 0 sampleRegistry "zz" [1, 2, 3] = (sampleRegistry, [])
      ∧ media_webhook_event 0 sampleRegistry "zz" (TwilioEvent.media "inbound" "AQID")
          = (sampleRegistry, [])) :=
  ⟨by decide, unknown_stream_media_dropped 0 sampleRegistry "zz" "AQID" [1, 2, 3] (by decide)⟩

/-- C2 (counterexample): in the scenario start, five inbound media
frames of 160 bytes each, stop, the relay emits five upstream frames,
not zero — the code's send threshold is `AUDIO_BUFFER_SIZE` (160 bytes),
so each 160-byte frame is flushed immediately. -/
theorem scenario_nonzero_frames_counterexample :
    (runEvents 0 [] "S1" c2Events).2.length = 5
    ∧ ¬((runEvents 0 [] "S1" c2Events).2.length = 0) :=
  ⟨by decide, by decide⟩

/-- C2 (amended): with the code's configured upstream frame size of
`AUDIO_BUFFER_SIZE` = 160 bytes, the scenario emits five 160-byte
upstream frames (one per media event, nothing left buffered), and the
stop event removes the session's Registry entry, leaving zero active
sessions. -/
theorem scenario_five_frames_emitted :
    (runEvents 0 [] "S1" c2Events).2.length = 5
    ∧ (∀ f ∈ (runEvents 0 [] "S1" c2Events).2, f.length = AUDIO_BUFFER_SIZE)
    ∧ bufferOf (runEvents 0 [] "S1" c2Events).1 "S1" = []
    ∧ get_active_count (runEvents 0 [] "S1" c2Events).1 = 0 :=
  ⟨by decide, by decide, by decide, by decide⟩

/-- C3 (code evaluation): for a binary agent frame received while the
stream token is known as "SID123", the upstream ingest loop builds
exactly one outbound media envelope carrying the base64 of the frame —
and transmits nothing: `send_audio_to_twilio` only logs
"Audio data ready for Twilio". -/
theorem agent_audio_envelope_logged_not_sent :
    (handle_deepgram_message "SID123" (DeepgramMsg.binary [1, 2, 3])).constructed
      = [OutMsg.media "SID123" (b64encode [1, 2, 3])]
    ∧ b64encode [1, 2, 3] = "AQID"
    ∧ (handle_deepgram_message "SID123" (DeepgramMsg.binary [1, 2, 3])).transmitted = [] :=
  ⟨rfl, by decide, rfl⟩

/-- C4 (code evaluation): a UserStartedSpeaking event builds the clear
message tagged with the known stream token but transmits nothing
(`send_clear_to_twilio` only logs "Clear message ready for Twilio");
no other upstream text event kind builds a clear message. -/
theorem barge_in_clear_logged_not_sent :
    (handle_deepgram_message "SID123"
        (DeepgramMsg.text (some "UserStartedSpeaking"))).constructed
      = [OutMsg.clear "SID123"]
    ∧ (handle_deepgram_message "SID123"
        (DeepgramMsg.text (some "UserStartedSpeaking"))).transmitted = []
    ∧ handle_deepgram_message "SID123" (DeepgramMsg.text (some "Welcome")) = ⟨[], []⟩
    ∧ handle_deepgram_message "SID123" (DeepgramMsg.text none) = ⟨[], []⟩ :=
  ⟨by decide, by decide, by decide, by decide⟩

/-- C9: the inline configuration message of `start_deepgram_connection`
equals the cached payload of `get_deepgram_config`, is identical across
all sessions, and does not depend on the bearer credential (which the
program passes only as a connection-level websocket subprotocol in
`create_deepgram_connection`): it carries no per-call data. -/
theorem deepgram_config_static (sid sid2 key key2 : String) :
    config_message sid key = get_deepgram_config
    ∧ config_message sid key = config_message sid2 key2 :=
  ⟨rfl, rfl⟩
